import Mathlib

/-!
Shallow embedding of the Patient Management System (`src/main.py`), a FastAPI
service backed by a single JSON document mapping patient ids to records.

Modelling decisions, each tied to the source:

* Python `dict` preserves insertion order and has unique keys; we embed stored
  JSON objects as association lists `List (String × α)` with Python's
  `d[k] = v` (replace in place if the key exists, else append), `del d[k]`,
  `k in d` and `d.get(k, default)` semantics.
* Python floats are embedded as exact rationals `ℚ`; `round(x, 2)` is embedded
  as round-half-to-even on `x * 100` (Python's documented rounding mode).
* `pydantic.BaseModel.model_dump` serializes declared fields in declaration
  order followed by `@computed_field`s (`bmi`, `verdict`), so the dump of a
  `Patient` has keys `id, name, city, age, gender, height, weight, bmi,
  verdict`; `exclude=['id']` drops only `id`.
* `Patient(**info)` re-validates every field against its `Field` constraint
  (`age`: integer with `gt=0, lt=120`; `gender`: one of the three literals;
  `height`, `weight`: numbers with `gt=0`; `id`, `name`, `city`: strings with
  no further constraint) and ignores extra keys (pydantic default
  `extra='ignore'`).  Numeric-string coercion of pydantic's lax mode is not
  modelled; no record written by this service ever stores numbers as strings.
* Each HTTP handler is embedded as a pure function from the loaded store (and
  its request arguments) to the response together with the store that is
  persisted when the handler returns: branches that never call `save_data`
  return the input store unchanged.
* Python's `sorted(l, key=k, reverse=r)` is a stable sort; any two stable
  sorts with respect to the same key order agree, so it is embedded as
  `List.insertionSort` with the non-strict key comparison (flipped when
  `reverse=True`), which places a newly inserted element after all earlier
  elements whose key is not strictly greater, i.e. stably.
-/

namespace PMS

/-- A JSON scalar value as produced by `model_dump`: strings, or numbers
(ints and floats are both embedded as `ℚ`). -/
inductive JValue where
  | str (s : String)
  | num (q : ℚ)
deriving DecidableEq, Repr

abbrev Dict (α : Type) := List (String × α)

/-- A stored patient record: a JSON object. -/
abbrev RecordDict := Dict JValue

/-- The persisted store `patients.json`: a JSON object keyed by patient id. -/
abbrev Store := Dict RecordDict

/-- `d.get(k)` / `d[k]` lookup: first matching key. -/
def dictGet {α : Type} : Dict α → String → Option α
  | [], _ => none
  | (k', v) :: t, k => if k' = k then some v else dictGet t k

/-- Python `d[k] = v`: replace in place if `k` is present, else append. -/
def dictSet {α : Type} : Dict α → String → α → Dict α
  | [], k, v => [(k, v)]
  | (k', v') :: t, k, v => if k' = k then (k, v) :: t else (k', v') :: dictSet t k v

/-- Python `del d[k]`: remove the key. -/
def dictDel {α : Type} : Dict α → String → Dict α
  | [], _ => []
  | (k', v') :: t, k => if k' = k then t else (k', v') :: dictDel t k

/-- Python `k in d`. -/
def dictHasKey {α : Type} : Dict α → String → Bool
  | [], _ => false
  | (k', _) :: t, k => k' = k || dictHasKey t k

/-- The keys of a dict, in iteration order. -/
def keys {α : Type} (d : Dict α) : List String := d.map Prod.fst

/-- Round-half-to-even to the nearest integer (Python's `round` on one
argument). -/
def roundHalfEven (q : ℚ) : ℤ :=
  let f : ℤ := ⌊q⌋
  let frac : ℚ := q - f
  if frac < 1/2 then f
  else if 1/2 < frac then f + 1
  else if f % 2 = 0 then f else f + 1

/-- Python's `round(q, 2)`. -/
def round2 (q : ℚ) : ℚ := (roundHalfEven (q * 100) : ℚ) / 100

/-- The `Patient` model's declared fields (`src/main.py:10-18`). -/
structure Patient where
  id : String
  name : String
  city : String
  age : ℤ
  gender : String
  height : ℚ
  weight : ℚ
deriving DecidableEq, Repr

/-- Computed field `bmi` (`src/main.py:20-24`): `round(weight/height**2, 2)`. -/
def Patient.bmi (p : Patient) : ℚ := round2 (p.weight / p.height ^ 2)

/-- Computed field `verdict` (`src/main.py:26-36`). -/
def Patient.verdict (p : Patient) : String :=
  if p.bmi < 18.5 then "Underweight"
  else if 18.5 ≤ p.bmi ∧ p.bmi < 25 then "Normal weight"
  else if 25 ≤ p.bmi ∧ p.bmi < 30 then "Overweight"
  else "Obese"

/-- The admissible `gender` literals (`src/main.py:16`). -/
def genders : List String := ["Male", "Female", "Other"]

/-- The field constraints the `Patient` model enforces beyond types:
`age` strictly between 0 and 120, `gender` in the literal set, `height` and
`weight` strictly positive.  `name` and `city` carry no constraint beyond
being strings. -/
def Patient.Valid (p : Patient) : Prop :=
  0 < p.age ∧ p.age < 120 ∧ p.gender ∈ genders ∧ 0 < p.height ∧ 0 < p.weight

instance (p : Patient) : Decidable p.Valid := by
  unfold Patient.Valid; infer_instance

/-- `model_dump()`: declared fields in declaration order, then the computed
fields `bmi` and `verdict` (pydantic v2 serializes `@computed_field`s). -/
def Patient.model_dump (p : Patient) : RecordDict :=
  [("id", .str p.id), ("name", .str p.name), ("city", .str p.city),
   ("age", .num p.age), ("gender", .str p.gender),
   ("height", .num p.height), ("weight", .num p.weight),
   ("bmi", .num p.bmi), ("verdict", .str p.verdict)]

/-- `model_dump(exclude=['id'])` (`src/main.py:119,147`). -/
def Patient.dump_no_id (p : Patient) : RecordDict :=
  [("name", .str p.name), ("city", .str p.city),
   ("age", .num p.age), ("gender", .str p.gender),
   ("height", .num p.height), ("weight", .num p.weight),
   ("bmi", .num p.bmi), ("verdict", .str p.verdict)]

/-- Validate a `str` field: any string is accepted (pydantic `str` with
`Field(...)` imposes no non-emptiness constraint). -/
def parseStr (field : String) : Option JValue → Except String String
  | some (.str s) => .ok s
  | _ => .error field

/-- Validate the `age` field: an integer with `gt=0, lt=120`. -/
def parseAge : Option JValue → Except String ℤ
  | some (.num q) =>
      if q.den = 1 ∧ 0 < q ∧ q < 120 then .ok q.num else .error "age"
  | _ => .error "age"

/-- Validate the `gender` field: one of the three literals. -/
def parseGender : Option JValue → Except String String
  | some (.str s) => if s ∈ genders then .ok s else .error "gender"
  | _ => .error "gender"

/-- Validate a positive-float field (`height`, `weight`: `gt=0`). -/
def parsePos (field : String) : Option JValue → Except String ℚ
  | some (.num q) => if 0 < q then .ok q else .error field
  | _ => .error field

/-- `Patient(**d)`: validate every declared field from the dict `d`, ignoring
extra keys (such as a stored `bmi`/`verdict`). -/
def Patient.fromDict (d : RecordDict) : Except String Patient :=
  (parseStr "id" (dictGet d "id")).bind fun i =>
  (parseStr "name" (dictGet d "name")).bind fun n =>
  (parseStr "city" (dictGet d "city")).bind fun c =>
  (parseAge (dictGet d "age")).bind fun a =>
  (parseGender (dictGet d "gender")).bind fun g =>
  (parsePos "height" (dictGet d "height")).bind fun h =>
  (parsePos "weight" (dictGet d "weight")).bind fun w =>
  .ok ⟨i, n, c, a, g, h, w⟩

/-- The `PatientUpdate` model (`src/main.py:39-46`): every field optional,
defaulting to unset.  `none` models a field absent from the request body;
`model_dump(exclude_unset=True)` then omits it. -/
structure PatientUpdate where
  name : Option String := none
  city : Option String := none
  age : Option ℤ := none
  gender : Option String := none
  height : Option ℚ := none
  weight : Option ℚ := none
deriving DecidableEq, Repr

/-- `patient_update.model_dump(exclude_unset=True)` (`src/main.py:137`): the
explicitly set fields, in field declaration order. -/
def PatientUpdate.dump_set (u : PatientUpdate) : RecordDict :=
  (u.name.toList.map fun v => ("name", JValue.str v)) ++
  (u.city.toList.map fun v => ("city", JValue.str v)) ++
  (u.age.toList.map fun v => ("age", JValue.num v)) ++
  (u.gender.toList.map fun v => ("gender", JValue.str v)) ++
  (u.height.toList.map fun v => ("height", JValue.num v)) ++
  (u.weight.toList.map fun v => ("weight", JValue.num v))

/-- The merge loop `for key, value in updated_patient_info.items():
existing_patient_info[key] = value` (`src/main.py:139-140`). -/
def mergeInto (existing upd : RecordDict) : RecordDict :=
  upd.foldl (fun d kv => dictSet d kv.1 kv.2) existing

/-- A response body: a message, a single record, or a list of records. -/
inductive Payload where
  | msg (s : String)
  | record (r : RecordDict)
  | listing (l : List RecordDict)
deriving DecidableEq, Repr

/-- An HTTP response: status code and body.  `HTTPException` branches are the
4xx/5xx statuses with their `detail` string. -/
structure Response where
  status : Nat
  payload : Payload
deriving DecidableEq, Repr

/-- `GET /patient/{patient_id}` (`src/main.py:75-82`).  The second component
of every handler's result is the store persisted when the handler returns;
`view_patient` never saves. -/
def view_patient (store : Store) (pid : String) : Response × Store :=
  match dictGet store pid with
  | some r => (⟨200, .record r⟩, store)
  | none => (⟨404, .msg "Patient not found"⟩, store)

/-- `POST /create` (`src/main.py:108-124`).  FastAPI has already validated the
body into a `Patient`. -/
def create_patient (store : Store) (p : Patient) : Response × Store :=
  if dictHasKey store p.id then
    (⟨400, .msg "Patient with this ID already exists"⟩, store)
  else
    (⟨201, .msg "Patient created successfully"⟩, dictSet store p.id p.dump_no_id)

/-- `PUT /edit/{patient_id}` (`src/main.py:127-152`): merge the set fields
into the stored record, reattach `id`, reconstruct a full `Patient` (which
re-validates every field and recomputes `bmi`/`verdict`), store its dump
without `id`.  A failed reconstruction raises `ValidationError` before
`save_data`, surfaced as an error response with the store unchanged. -/
def update_patient (store : Store) (pid : String) (u : PatientUpdate) :
    Response × Store :=
  match dictGet store pid with
  | none => (⟨404, .msg "Patient not found"⟩, store)
  | some existing =>
    let merged := dictSet (mergeInto existing u.dump_set) "id" (.str pid)
    match Patient.fromDict merged with
    | .error e => (⟨422, .msg e⟩, store)
    | .ok p =>
      (⟨200, .msg "Patient updated successfully"⟩, dictSet store pid p.dump_no_id)

/-- `DELETE /delete/{patient_id}` (`src/main.py:155-167`). -/
def delete_patient (store : Store) (pid : String) : Response × Store :=
  if dictHasKey store pid then
    (⟨200, .msg "Patient deleted successfully"⟩, dictDel store pid)
  else
    (⟨404, .msg "Patient not found"⟩, store)

/-- The enrichment loop of `GET /sort` (`src/main.py:97-101`): for each stored
record, inject the id from the key, reconstruct a `Patient`, and take its full
`model_dump()`.  A record failing reconstruction raises `ValidationError`
inside the handler (a 500 for the caller). -/
def enrich : Store → Except String (List RecordDict)
  | [] => .ok []
  | (pid, info) :: t =>
    (Patient.fromDict (dictSet info "id" (.str pid))).bind fun p =>
    (enrich t).bind fun rest =>
    .ok (p.model_dump :: rest)

/-- The sort key `x.get(sort_by, 0)` (`src/main.py:104`): the named field of
the enriched dump, defaulting to 0. -/
def sortKey (f : String) (r : RecordDict) : ℚ :=
  match dictGet r f with
  | some (.num q) => q
  | _ => 0

/-- Ascending key comparison used by the stable sort. -/
def ascR (f : String) (a b : RecordDict) : Prop := sortKey f a ≤ sortKey f b

/-- Descending key comparison: Python's `sorted(..., reverse=True)` is the
stable sort under the reversed comparison. -/
def descR (f : String) (a b : RecordDict) : Prop := sortKey f b ≤ sortKey f a

instance (f : String) : DecidableRel (ascR f) := fun a b =>
  inferInstanceAs (Decidable (sortKey f a ≤ sortKey f b))

instance (f : String) : DecidableRel (descR f) := fun a b =>
  inferInstanceAs (Decidable (sortKey f b ≤ sortKey f a))

instance (f : String) : IsTotal RecordDict (ascR f) :=
  ⟨fun a b => le_total (sortKey f a) (sortKey f b)⟩

instance (f : String) : IsTrans RecordDict (ascR f) :=
  ⟨fun _ _ _ h1 h2 => le_trans h1 h2⟩

instance (f : String) : IsTotal RecordDict (descR f) :=
  ⟨fun a b => le_total (sortKey f b) (sortKey f a)⟩

instance (f : String) : IsTrans RecordDict (descR f) :=
  ⟨fun _ _ _ h1 h2 => le_trans h2 h1⟩

/-- The allowed `sort_by` values (`src/main.py:89`). -/
def valid_fields : List String := ["height", "weight", "bmi"]

/-- `GET /sort` (`src/main.py:84-106`): validate `sort_by`, then `order`,
enrich every record, and stably sort by the requested key, reversed when
`order = "desc"`.  The handler never saves the store. -/
def sort_patients (store : Store) (sort_by order : String) : Response × Store :=
  if sort_by ∉ valid_fields then
    (⟨400, .msg "Invalid field. Select from height, weight, bmi"⟩, store)
  else if order ∉ ["asc", "desc"] then
    (⟨400, .msg "Invalid order. Select between asc and desc"⟩, store)
  else
    match enrich store with
    | .error e => (⟨500, .msg e⟩, store)
    | .ok l =>
      let sorted :=
        if order = "desc" then List.insertionSort (descR sort_by) l
        else List.insertionSort (ascR sort_by) l
      (⟨200, .listing sorted⟩, store)

/-! ### Concrete instances used to exercise the model -/

/-- The boundary patient of the spec: height 1.0 m, weight 18.5 kg. -/
def pBoundaryNormal : Patient := ⟨"P1", "X", "Y", 30, "Male", 1, 18.5⟩

/-- The boundary patient of the spec: height 1.0 m, weight 18.49 kg. -/
def pBoundaryUnder : Patient := ⟨"P1", "X", "Y", 30, "Male", 1, 18.49⟩

/-- A valid patient: height 2 m, weight 80 kg, bmi 20. -/
def pEx : Patient := ⟨"P2", "N", "C", 40, "Female", 2, 80⟩

/-- A create payload with empty `name` and `city` and every constrained field
in range. -/
def dEmptyNC : RecordDict :=
  [("id", .str "P1"), ("name", .str ""), ("city", .str ""), ("age", .num 30),
   ("gender", .str "Male"), ("height", .num 2), ("weight", .num 80)]

/-- A first stored patient (height 1, weight 20). -/
def p1W : Patient := ⟨"A1", "N1", "C1", 30, "Male", 1, 20⟩

/-- A second stored patient with the same height and weight as `p1W`. -/
def p2W : Patient := ⟨"A2", "N2", "C2", 40, "Female", 1, 20⟩

/-- A store holding `p1W` and `p2W` as create would persist them. -/
def storeW : Store := [("A1", p1W.dump_no_id), ("A2", p2W.dump_no_id)]

/-- The enrichment of `storeW` in iteration order. -/
def lW : List RecordDict := [p1W.model_dump, p2W.model_dump]

/-- A partial update setting only `weight`. -/
def uW : PatientUpdate := { weight := some 25 }

/-- `p1W` after applying `uW`. -/
def pUpd : Patient := ⟨"A1", "N1", "C1", 30, "Male", 1, 25⟩

/-! ### Dictionary lemmas -/

theorem dictGet_dictSet_self {α : Type} (d : Dict α) (k : String) (v : α) :
    dictGet (dictSet d k v) k = some v := by
  induction d with
  | nil => simp [dictSet, dictGet]
  | cons kv t ih =>
    obtain ⟨k', v'⟩ := kv
    by_cases h : k' = k
    · simp [dictSet, h, dictGet]
    · simp [dictSet, h, dictGet, ih]

theorem dictGet_dictSet_ne {α : Type} (d : Dict α) {k k' : String} (v : α)
    (h : k' ≠ k) : dictGet (dictSet d k v) k' = dictGet d k' := by
  induction d with
  | nil => simp [dictSet, dictGet, Ne.symm h]
  | cons kv t ih =>
    obtain ⟨k'', v''⟩ := kv
    by_cases h2 : k'' = k
    · subst h2
      simp [dictSet, dictGet, Ne.symm h]
    · simp [dictSet, h2, dictGet, ih]

theorem dictGet_dictDel_ne {α : Type} (d : Dict α) {k k' : String}
    (h : k' ≠ k) : dictGet (dictDel d k) k' = dictGet d k' := by
  induction d with
  | nil => simp [dictDel]
  | cons kv t ih =>
    obtain ⟨k'', v''⟩ := kv
    by_cases h2 : k'' = k
    · subst h2
      simp [dictDel, dictGet, Ne.symm h]
    · simp [dictDel, h2, dictGet, ih]

theorem dictGet_eq_none_of_not_mem_keys {α : Type} (d : Dict α) (k : String)
    (h : k ∉ keys d) : dictGet d k = none := by
  induction d with
  | nil => rfl
  | cons kv t ih =>
    obtain ⟨a, b⟩ := kv
    simp only [keys, List.map_cons, List.mem_cons] at h
    push_neg at h
    simp [dictGet, Ne.symm h.1, ih (by simpa [keys] using h.2)]

theorem dictGet_dictDel_self {α : Type} (d : Dict α) (k : String)
    (h : (keys d).Nodup) : dictGet (dictDel d k) k = none := by
  induction d with
  | nil => simp [dictDel, dictGet]
  | cons kv t ih =>
    obtain ⟨k', v'⟩ := kv
    simp only [keys, List.map_cons, List.nodup_cons] at h
    by_cases h2 : k' = k
    · -- the head is the deleted key; the tail cannot mention it again
      simp only [dictDel, if_pos h2]
      exact dictGet_eq_none_of_not_mem_keys t k (h2 ▸ h.1)
    · simp [dictDel, h2, dictGet, ih h.2]

theorem dictGet_none_of_hasKey_false {α : Type} (d : Dict α) (k : String)
    (h : dictHasKey d k = false) : dictGet d k = none := by
  induction d with
  | nil => rfl
  | cons kv t ih =>
    obtain ⟨k', v'⟩ := kv
    simp only [dictHasKey, Bool.or_eq_false_iff, decide_eq_false_iff_not] at h
    simp [dictGet, h.1, ih h.2]

theorem dictHasKey_false_of_get_none {α : Type} (d : Dict α) (k : String)
    (h : dictGet d k = none) : dictHasKey d k = false := by
  induction d with
  | nil => rfl
  | cons kv t ih =>
    obtain ⟨k', v'⟩ := kv
    by_cases h2 : k' = k
    · simp [dictGet, h2] at h
    · simp only [dictGet, if_neg h2] at h
      simp [dictHasKey, h2, ih h]

/-! ### The verdict classification -/

theorem verdict_underweight_iff (p : Patient) :
    p.verdict = "Underweight" ↔ p.bmi < 18.5 := by
  unfold Patient.verdict
  split_ifs <;> simp_all <;> intros <;> linarith

theorem verdict_normal_iff (p : Patient) :
    p.verdict = "Normal weight" ↔ 18.5 ≤ p.bmi ∧ p.bmi < 25 := by
  unfold Patient.verdict
  split_ifs <;> simp_all <;> intros <;> linarith

theorem verdict_overweight_iff (p : Patient) :
    p.verdict = "Overweight" ↔ 25 ≤ p.bmi ∧ p.bmi < 30 := by
  unfold Patient.verdict
  split_ifs <;> simp_all <;> intros <;> linarith

theorem verdict_obese_iff (p : Patient) :
    p.verdict = "Obese" ↔ 30 ≤ p.bmi := by
  unfold Patient.verdict
  split_ifs <;> simp_all <;> intros <;> linarith

/-- Claim C2: for every patient with positive height and weight, `bmi` is
`weight / height^2` rounded to two decimals and `verdict` is exactly the
class of the half-open thresholds; at height 1.0, weight 18.5 the bmi is
exactly 18.5 with verdict "Normal weight", and at weight 18.49 the verdict is
"Underweight". -/
theorem bmi_verdict_correct (p : Patient) (hh : 0 < p.height)
    (hw : 0 < p.weight) :
    p.bmi = round2 (p.weight / p.height ^ 2) ∧
    (p.verdict = "Underweight" ↔ p.bmi < 18.5) ∧
    (p.verdict = "Normal weight" ↔ 18.5 ≤ p.bmi ∧ p.bmi < 25) ∧
    (p.verdict = "Overweight" ↔ 25 ≤ p.bmi ∧ p.bmi < 30) ∧
    (p.verdict = "Obese" ↔ 30 ≤ p.bmi) ∧
    pBoundaryNormal.bmi = 18.5 ∧
    pBoundaryNormal.verdict = "Normal weight" ∧
    pBoundaryUnder.bmi = 18.49 ∧
    pBoundaryUnder.verdict = "Underweight" := by
  refine ⟨rfl, verdict_underweight_iff p, verdict_normal_iff p,
    verdict_overweight_iff p, verdict_obese_iff p, ?_, ?_, ?_, ?_⟩ <;>
    norm_num [pBoundaryNormal, pBoundaryUnder, Patient.verdict, Patient.bmi,
      round2, roundHalfEven]

/-- Witness for C2 at the concrete boundary patient. -/
theorem bmi_verdict_correct_witness :
    pBoundaryNormal.bmi = round2 (pBoundaryNormal.weight / pBoundaryNormal.height ^ 2) ∧
    (pBoundaryNormal.verdict = "Underweight" ↔ pBoundaryNormal.bmi < 18.5) ∧
    (pBoundaryNormal.verdict = "Normal weight" ↔
      18.5 ≤ pBoundaryNormal.bmi ∧ pBoundaryNormal.bmi < 25) ∧
    (pBoundaryNormal.verdict = "Overweight" ↔
      25 ≤ pBoundaryNormal.bmi ∧ pBoundaryNormal.bmi < 30) ∧
    (pBoundaryNormal.verdict = "Obese" ↔ 30 ≤ pBoundaryNormal.bmi) ∧
    pBoundaryNormal.bmi = 18.5 ∧
    pBoundaryNormal.verdict = "Normal weight" ∧
    pBoundaryUnder.bmi = 18.49 ∧
    pBoundaryUnder.verdict = "Underweight" :=
  bmi_verdict_correct pBoundaryNormal (by norm_num [pBoundaryNormal])
    (by norm_num [pBoundaryNormal])

/-! ### Claim theorems: create, delete, frame -/

/-- Claim C6: create with an id already in the store fails with 400 and the
persisted store is unchanged (no save occurs); create with a fresh id inserts
the dumped value under that id and returns 201. -/
theorem create_conflict_or_insert (store : Store) (p : Patient) :
    (dictHasKey store p.id = true →
      create_patient store p =
        (⟨400, .msg "Patient with this ID already exists"⟩, store)) ∧
    (dictHasKey store p.id = false →
      (create_patient store p).1.status = 201 ∧
      dictGet (create_patient store p).2 p.id = some p.dump_no_id) := by
  constructor
  · intro h
    simp [create_patient, h]
  · intro h
    simp [create_patient, h, dictGet_dictSet_self]

/-- Claim C8: deleting an absent id fails with 404 leaving the store
unchanged; deleting a present id (in a store with unique keys, as every
Python dict has) removes exactly that key, leaves every other key's value
unchanged, and returns 200. -/
theorem delete_removes_exactly_key (store : Store) (pid : String) :
    (dictHasKey store pid = false →
      delete_patient store pid = (⟨404, .msg "Patient not found"⟩, store)) ∧
    ((keys store).Nodup → dictHasKey store pid = true →
      (delete_patient store pid).1 = ⟨200, .msg "Patient deleted successfully"⟩ ∧
      dictGet (delete_patient store pid).2 pid = none ∧
      ∀ k, k ≠ pid → dictGet (delete_patient store pid).2 k = dictGet store k) := by
  constructor
  · intro h
    simp [delete_patient, h]
  · intro hnd h
    refine ⟨by simp [delete_patient, h], ?_, ?_⟩
    · simp [delete_patient, h, dictGet_dictDel_self store pid hnd]
    · intro k hk
      simp [delete_patient, h, dictGet_dictDel_ne store hk]

/-- Claim C10: a successful create of id `p.id` and a successful update of id
`pid` each leave the value stored under every other key unchanged. -/
theorem write_frame (store : Store) (p : Patient) (pid : String)
    (u : PatientUpdate) :
    (dictHasKey store p.id = false →
      ∀ k, k ≠ p.id → dictGet (create_patient store p).2 k = dictGet store k) ∧
    ((update_patient store pid u).1.status = 200 →
      ∀ k, k ≠ pid → dictGet (update_patient store pid u).2 k = dictGet store k) := by
  constructor
  · intro h k hk
    simp [create_patient, h, dictGet_dictSet_ne store _ hk]
  · intro _ k hk
    cases h1 : dictGet store pid with
    | none => simp [update_patient, h1]
    | some existing =>
      cases h2 : Patient.fromDict
          (dictSet (mergeInto existing u.dump_set) "id" (.str pid)) with
      | error e => simp [update_patient, h1, h2]
      | ok q => simp [update_patient, h1, h2, dictGet_dictSet_ne store _ hk]

/-! ### Merge lemmas -/

theorem except_bind_ok {ε α β : Type} (x : Except ε α) (f : α → Except ε β)
    (b : β) (h : x.bind f = .ok b) : ∃ a, x = .ok a ∧ f a = .ok b := by
  cases x with
  | error e => simp [Except.bind] at h
  | ok a => exact ⟨a, rfl, h⟩

theorem mergeInto_get_of_not_mem (r upd : RecordDict) (f : String)
    (hf : f ∉ keys upd) : dictGet (mergeInto r upd) f = dictGet r f := by
  induction upd generalizing r with
  | nil => rfl
  | cons kv t ih =>
    obtain ⟨k, v⟩ := kv
    simp only [keys, List.map_cons, List.mem_cons] at hf
    push_neg at hf
    show dictGet (mergeInto (dictSet r k v) t) f = dictGet r f
    rw [ih (dictSet r k v) (by simpa [keys] using hf.2),
      dictGet_dictSet_ne _ _ hf.1]

theorem mergeInto_get_of_mem (r : RecordDict) (upd : RecordDict) (f : String)
    (v : JValue) (hnd : (keys upd).Nodup) (hmem : (f, v) ∈ upd) :
    dictGet (mergeInto r upd) f = some v := by
  induction upd generalizing r with
  | nil => cases hmem
  | cons kv t ih =>
    obtain ⟨k, w⟩ := kv
    simp only [keys, List.map_cons, List.nodup_cons] at hnd
    rcases List.mem_cons.mp hmem with heq | hmem2
    · injection heq with h1 h2
      subst h1
      subst h2
      show dictGet (mergeInto (dictSet r f v) t) f = some v
      rw [mergeInto_get_of_not_mem _ _ _ (by simpa [keys] using hnd.1),
        dictGet_dictSet_self]
    · show dictGet (mergeInto (dictSet r k w) t) f = some v
      exact ih (dictSet r k w) hnd.2 hmem2

theorem dump_set_keys_nodup (u : PatientUpdate) : (keys u.dump_set).Nodup := by
  obtain ⟨n, c, a, g, h, w⟩ := u
  cases n <;> cases c <;> cases a <;> cases g <;> cases h <;> cases w <;>
    simp [PatientUpdate.dump_set, keys]

/-! ### Claim theorems: stored shape, validation, update, sort errors,
round-trip -/

/-- Claim C1 counterexample: the value persisted by create contains the keys
`bmi` and `verdict` (pydantic v2 serializes `@computed_field`s in
`model_dump`), refuting the claim that the stored value holds only the six
declared fields. -/
theorem stored_value_contains_bmi :
    dictGet (create_patient [] pEx).2 "P2" = some pEx.dump_no_id ∧
    "bmi" ∈ keys pEx.dump_no_id ∧ "verdict" ∈ keys pEx.dump_no_id :=
  ⟨rfl, by decide, by decide⟩

/-- Claim C1 (amended): every record persisted by create or update is a
`model_dump(exclude=['id'])`, whose keys are exactly `name, city, age,
gender, height, weight, bmi, verdict` — so `bmi` and `verdict` ARE stored
(recomputed at construction time), and `id` never is. -/
theorem stored_record_shape (store : Store) (p : Patient) (pid : String)
    (u : PatientUpdate) :
    keys p.dump_no_id =
      ["name", "city", "age", "gender", "height", "weight", "bmi", "verdict"] ∧
    "id" ∉ keys p.dump_no_id ∧
    (dictHasKey store p.id = false →
      dictGet (create_patient store p).2 p.id = some p.dump_no_id) ∧
    (∀ existing q, dictGet store pid = some existing →
      Patient.fromDict
        (dictSet (mergeInto existing u.dump_set) "id" (.str pid)) = .ok q →
      dictGet (update_patient store pid u).2 pid = some q.dump_no_id) := by
  refine ⟨rfl, by simp [Patient.dump_no_id, keys], ?_, ?_⟩
  · intro h
    simp [create_patient, h, dictGet_dictSet_self]
  · intro existing q h1 h2
    simp [update_patient, h1, h2, dictGet_dictSet_self]

/-- Claim C3 counterexample: a payload with empty `name` and empty `city`
passes validation (pydantic's plain `str` fields accept the empty string),
refuting the claim that construction fails for empty name or city. -/
theorem empty_name_city_accepted :
    Patient.fromDict dEmptyNC = .ok ⟨"P1", "", "", 30, "Male", 2, 80⟩ := rfl

/-- Claim C3 (amended): `Patient` construction validates only the
constrained fields (`age` range, `gender` literal, positive `height` and
`weight`); `name` and `city` accept every string, including the empty one,
so accepted patients may have empty name or city. -/
theorem name_city_unvalidated (s t i g : String) (a h w : ℚ)
    (hg : g ∈ genders) (ha : a.den = 1) (ha0 : 0 < a) (ha1 : a < 120)
    (hh : 0 < h) (hw : 0 < w) :
    Patient.fromDict
      [("id", .str i), ("name", .str s), ("city", .str t), ("age", .num a),
       ("gender", .str g), ("height", .num h), ("weight", .num w)] =
      .ok ⟨i, s, t, a.num, g, h, w⟩ := by
  simp [Patient.fromDict, dictGet, parseStr, parseAge, parseGender, parsePos,
    Except.bind, hg, ha, ha0, ha1, hh, hw]

/-- Witness for the amended C3 at empty name and city. -/
theorem name_city_unvalidated_witness :
    Patient.fromDict
      [("id", .str "P1"), ("name", .str ""), ("city", .str ""),
       ("age", .num 30), ("gender", .str "Male"), ("height", .num 2),
       ("weight", .num 80)] =
      .ok ⟨"P1", "", "", 30, "Male", 2, 80⟩ :=
  name_city_unvalidated "" "" "P1" "Male" 30 2 80 (by decide) (by decide)
    (by decide) (by decide) (by decide) (by decide)

/-- Claim C4: update of an absent id fails with 404 leaving the store
unchanged; update of a present id merges exactly the explicitly set payload
fields over the stored record (unset fields unchanged), re-validates the
merged record by reconstructing a full `Patient`, and on success stores its
dump with `id` excluded and `bmi`/`verdict` recomputed from the resulting
height and weight. -/
theorem update_merges_and_revalidates (store : Store) (pid : String)
    (u : PatientUpdate) :
    (dictGet store pid = none →
      update_patient store pid u = (⟨404, .msg "Patient not found"⟩, store)) ∧
    (∀ existing, dictGet store pid = some existing →
      (∀ f v, (f, v) ∈ u.dump_set →
        dictGet (mergeInto existing u.dump_set) f = some v) ∧
      (∀ f, f ∉ keys u.dump_set →
        dictGet (mergeInto existing u.dump_set) f = dictGet existing f) ∧
      (∀ q, Patient.fromDict
          (dictSet (mergeInto existing u.dump_set) "id" (.str pid)) = .ok q →
        update_patient store pid u =
          (⟨200, .msg "Patient updated successfully"⟩,
            dictSet store pid q.dump_no_id) ∧
        dictGet q.dump_no_id "bmi" =
          some (.num (round2 (q.weight / q.height ^ 2))) ∧
        dictGet q.dump_no_id "verdict" = some (.str q.verdict) ∧
        "id" ∉ keys q.dump_no_id)) := by
  constructor
  · intro h
    simp [update_patient, h]
  · intro existing h1
    refine ⟨fun f v hfv => mergeInto_get_of_mem _ _ _ _ (dump_set_keys_nodup u) hfv,
      fun f hf => mergeInto_get_of_not_mem _ _ _ hf, fun q h2 => ⟨?_, rfl, rfl, by simp [Patient.dump_no_id, keys]⟩⟩
    simp [update_patient, h1, h2]

/-- Claim C7: sort with a `sort_by` outside {height, weight, bmi} fails with
400, and sort with an `order` outside {asc, desc} fails with 400 whether or
not `sort_by` is valid; in every such case the persisted store is
unchanged. -/
theorem sort_rejects_invalid_params (store : Store) (sb ord : String) :
    (sb ∉ valid_fields →
      sort_patients store sb ord =
        (⟨400, .msg "Invalid field. Select from height, weight, bmi"⟩, store)) ∧
    (ord ∉ ["asc", "desc"] →
      (sort_patients store sb ord).1.status = 400 ∧
      (sort_patients store sb ord).2 = store) := by
  constructor
  · intro h
    simp [sort_patients, h]
  · intro h
    by_cases h2 : sb ∈ valid_fields
    · simp [sort_patients, h2, h]
    · simp [sort_patients, h2, h]

/-- Claim C9: creating a valid patient with a fresh id and then viewing that
id returns the stored record, which carries every submitted field with its
submitted value plus the derived `bmi` (the rounding of weight/height²) and
`verdict`, and never contains the `id` key. -/
theorem create_then_view_roundtrip (store : Store) (p : Patient)
    (hv : p.Valid) (h : dictHasKey store p.id = false) :
    view_patient (create_patient store p).2 p.id =
      (⟨200, .record p.dump_no_id⟩, (create_patient store p).2) ∧
    dictGet p.dump_no_id "name" = some (.str p.name) ∧
    dictGet p.dump_no_id "city" = some (.str p.city) ∧
    dictGet p.dump_no_id "age" = some (.num p.age) ∧
    dictGet p.dump_no_id "gender" = some (.str p.gender) ∧
    dictGet p.dump_no_id "height" = some (.num p.height) ∧
    dictGet p.dump_no_id "weight" = some (.num p.weight) ∧
    dictGet p.dump_no_id "bmi" =
      some (.num (round2 (p.weight / p.height ^ 2))) ∧
    dictGet p.dump_no_id "verdict" = some (.str p.verdict) ∧
    "id" ∉ keys p.dump_no_id := by
  refine ⟨?_, rfl, rfl, rfl, rfl, rfl, rfl, rfl, rfl, by simp [Patient.dump_no_id, keys]⟩
  simp [view_patient, create_patient, h, dictGet_dictSet_self]

/-- Witness for C9: create `pEx` into `storeW` and view it. -/
theorem create_then_view_roundtrip_witness :
    view_patient (create_patient storeW pEx).2 pEx.id =
      (⟨200, .record pEx.dump_no_id⟩, (create_patient storeW pEx).2) ∧
    dictGet pEx.dump_no_id "name" = some (.str pEx.name) ∧
    dictGet pEx.dump_no_id "city" = some (.str pEx.city) ∧
    dictGet pEx.dump_no_id "age" = some (.num pEx.age) ∧
    dictGet pEx.dump_no_id "gender" = some (.str pEx.gender) ∧
    dictGet pEx.dump_no_id "height" = some (.num pEx.height) ∧
    dictGet pEx.dump_no_id "weight" = some (.num pEx.weight) ∧
    dictGet pEx.dump_no_id "bmi" =
      some (.num (round2 (pEx.weight / pEx.height ^ 2))) ∧
    dictGet pEx.dump_no_id "verdict" = some (.str pEx.verdict) ∧
    "id" ∉ keys pEx.dump_no_id :=
  create_then_view_roundtrip storeW pEx (by decide) (by decide)

/-! ### Stability of the sort -/

theorem filter_orderedInsert_pos {α : Type} (r : α → α → Prop) [DecidableRel r]
    (p : α → Bool) (x : α) (l : List α) (hx : p x = true)
    (H : ∀ y, p y = true → r x y) :
    (List.orderedInsert r x l).filter p = x :: l.filter p := by
  induction l with
  | nil => simp [List.orderedInsert, hx]
  | cons y t ih =>
    by_cases hr : r x y
    · simp [List.orderedInsert, hr, hx]
    · have hy : p y = false := by
        cases hpy : p y
        · rfl
        · exact absurd (H y hpy) hr
      simp [List.orderedInsert, hr, hy, ih]

theorem filter_orderedInsert_neg {α : Type} (r : α → α → Prop) [DecidableRel r]
    (p : α → Bool) (x : α) (l : List α) (hx : p x = false) :
    (List.orderedInsert r x l).filter p = l.filter p := by
  induction l with
  | nil => simp [List.orderedInsert, hx]
  | cons y t ih =>
    by_cases hr : r x y
    · simp [List.orderedInsert, hr, hx]
    · cases hy : p y <;> simp [List.orderedInsert, hr, hy, ih]

/-- Insertion sort is stable: the elements of any comparison-equivalence
class (a set inside which `r` always holds) appear in the output in their
original order. -/
theorem filter_insertionSort {α : Type} (r : α → α → Prop) [DecidableRel r]
    (p : α → Bool) (H : ∀ a b, p a = true → p b = true → r a b)
    (l : List α) : (List.insertionSort r l).filter p = l.filter p := by
  induction l with
  | nil => rfl
  | cons x t ih =>
    show (List.orderedInsert r x (List.insertionSort r t)).filter p = _
    cases hx : p x with
    | true =>
      rw [filter_orderedInsert_pos r p x _ hx (fun y hy => H x y hx hy), ih]
      simp [hx]
    | false =>
      rw [filter_orderedInsert_neg r p x _ hx, ih]
      simp [hx]

/-- Claim C5: with a valid `sort_by` and an enrichable store, both orders
return 200 without touching the store; the ascending (resp. descending)
result is a permutation of the enriched list sorted by the key, and the sort
is stable in both directions: the records whose key equals any value `k`
appear in the same order as in the original iteration order of the mapping. -/
theorem sort_patients_stable (store : Store) (f : String)
    (hf : f ∈ valid_fields) (l : List RecordDict)
    (hl : enrich store = .ok l) :
    ∃ la ld,
      sort_patients store f "asc" = (⟨200, .listing la⟩, store) ∧
      sort_patients store f "desc" = (⟨200, .listing ld⟩, store) ∧
      la.Perm l ∧ ld.Perm l ∧
      la.Sorted (ascR f) ∧ ld.Sorted (descR f) ∧
      (∀ k : ℚ, la.filter (fun rc => decide (sortKey f rc = k)) =
        l.filter (fun rc => decide (sortKey f rc = k))) ∧
      (∀ k : ℚ, ld.filter (fun rc => decide (sortKey f rc = k)) =
        l.filter (fun rc => decide (sortKey f rc = k))) := by
  refine ⟨List.insertionSort (ascR f) l, List.insertionSort (descR f) l,
    ?_, ?_, List.perm_insertionSort _ l, List.perm_insertionSort _ l,
    List.sorted_insertionSort _ l, List.sorted_insertionSort _ l, ?_, ?_⟩
  · simp [sort_patients, hf, hl]
  · simp [sort_patients, hf, hl]
  · intro k
    refine filter_insertionSort _ _ ?_ l
    intro a b ha hb
    have ha' := of_decide_eq_true ha
    have hb' := of_decide_eq_true hb
    show sortKey f a ≤ sortKey f b
    rw [ha', hb']
  · intro k
    refine filter_insertionSort _ _ ?_ l
    intro a b ha hb
    have ha' := of_decide_eq_true ha
    have hb' := of_decide_eq_true hb
    show sortKey f b ≤ sortKey f a
    rw [ha', hb']

/-- Witness for C5 on a two-record store whose records share the sort key. -/
theorem sort_patients_stable_witness :
    enrich storeW = .ok lW ∧
    (∃ la ld,
      sort_patients storeW "height" "asc" = (⟨200, .listing la⟩, storeW) ∧
      sort_patients storeW "height" "desc" = (⟨200, .listing ld⟩, storeW) ∧
      la.Perm lW ∧ ld.Perm lW ∧
      la.Sorted (ascR "height") ∧ ld.Sorted (descR "height") ∧
      (∀ k : ℚ, la.filter (fun rc => decide (sortKey "height" rc = k)) =
        lW.filter (fun rc => decide (sortKey "height" rc = k))) ∧
      (∀ k : ℚ, ld.filter (fun rc => decide (sortKey "height" rc = k)) =
        lW.filter (fun rc => decide (sortKey "height" rc = k)))) :=
  ⟨rfl, sort_patients_stable storeW "height" (by decide) lW rfl⟩

end PMS
